import Mathlib

/-!
Shallow embedding of the usage-metering and cost-accounting subsystem of
`ai_service/app.py` (ThronixPRO).  Time is modelled in seconds as `Nat`;
monetary amounts as `ℚ`; the `ai_usage` table as an association list from
`user_id` to its row.  Each definition mirrors one Python function of the
source file.
-/

namespace ThronixPRO

/-- Timestamps in seconds (the embedding of `datetime`). -/
abbrev Time := Nat

/-- `timedelta(days=n)` in seconds. -/
def days (n : Nat) : Time := n * 86400

/-- One row of the `ai_usage` table: `token_count`, `monthly_cost`,
`reset_date` columns (`user_id` is the key of the store). -/
structure UsageRecord where
  token_count : Nat
  monthly_cost : ℚ
  reset_date : Time
deriving Repr, DecidableEq

/-- The `ai_usage` table: rows keyed by `user_id`. -/
abbrev Store := List (String × UsageRecord)

/-- Per-token pricing of one model: the `{"in": _, "out": _}` dict. -/
structure Rates where
  input : ℚ
  output : ℚ
deriving Repr, DecidableEq

/-- The module-level `PRICES` dict of `app.py` (USD per token, exact
rationals). -/
def PRICES : List (String × Rates) :=
  [("gpt-5-nano", ⟨0.05 / 1000000, 0.40 / 1000000⟩),
   ("gpt-5-mini", ⟨0.25 / 1000000, 2.00 / 1000000⟩),
   ("gpt-3.5-turbo", ⟨0.50 / 1000000, 1.50 / 1000000⟩)]

/-- `PRICES.get(model_name)`. -/
def priceFor (model_name : String) : Option Rates :=
  (PRICES.find? (fun p => p.1 == model_name)).map (·.2)

/-- `calculate_openai_cost(tokens_in, tokens_out, model_name)`:
`rates = PRICES.get(model_name); if not rates: return 0.0;
return tokens_in * rates["in"] + tokens_out * rates["out"]`. -/
def calculate_openai_cost (tokens_in tokens_out : Nat) (model_name : String) : ℚ :=
  match priceFor model_name with
  | none => 0
  | some rates => tokens_in * rates.input + tokens_out * rates.output

/-- `get_usage(user_id)`: `SELECT token_count, monthly_cost, reset_date
FROM ai_usage WHERE user_id = %s`, returning the (first) matching row or
`None` (`user_id` is the primary key, so at most one row matches). -/
def get_usage (s : Store) (user_id : String) : Option UsageRecord :=
  match s with
  | [] => none
  | p :: t => if p.1 == user_id then some p.2 else get_usage t user_id

/-- `init_user_usage(user_id)`: `INSERT INTO ai_usage ... VALUES
(user_id, 0, 0.0, now + 30 days) ON CONFLICT (user_id) DO NOTHING`. -/
def init_user_usage (s : Store) (user_id : String) (now : Time) : Store :=
  if (get_usage s user_id).isSome then s
  else (user_id, ⟨0, 0, now + days 30⟩) :: s

/-- Apply `f` to every row whose key is `user_id` (the effect of an SQL
`UPDATE ... WHERE user_id = %s`). -/
def mapRow (s : Store) (user_id : String) (f : UsageRecord → UsageRecord) : Store :=
  s.map (fun p => if p.1 == user_id then (p.1, f p.2) else p)

/-- `update_usage(user_id, tokens, cost)`: `UPDATE ai_usage SET
token_count = token_count + %s, monthly_cost = monthly_cost + %s
WHERE user_id = %s`. -/
def update_usage (s : Store) (user_id : String) (tokens : Nat) (cost : ℚ) : Store :=
  mapRow s user_id
    (fun r => ⟨r.token_count + tokens, r.monthly_cost + cost, r.reset_date⟩)

/-- `reset_if_needed(user_id, usage)`: if `now >= usage["reset_date"]`,
`UPDATE ai_usage SET token_count = 0, monthly_cost = 0, reset_date =
now + 30 days WHERE user_id = %s`, and the local snapshot is zeroed with
the same fresh `reset_date`; returns the (possibly updated) snapshot and
the resulting table. -/
def reset_if_needed (s : Store) (user_id : String) (usage : UsageRecord)
    (now : Time) : UsageRecord × Store :=
  if usage.reset_date ≤ now then
    (⟨0, 0, now + days 30⟩, mapRow s user_id (fun _ => ⟨0, 0, now + days 30⟩))
  else (usage, s)

/-- The handler's budget test at `app.py:106` (`check_budget` in the
spec's vocabulary): the request may proceed iff `monthly_cost < cap`. -/
def check_budget (usage : UsageRecord) (cap : ℚ) : Bool :=
  decide (usage.monthly_cost < cap)

/-- Outcome of one `strategy_suggestion` request.  `crash` stands for the
`TypeError` Python would raise if `get_usage` returned `None` (proved
unreachable below); `budgetExceeded` is the 403 response;
`externalFailure` is the exception propagating out of the OpenAI call;
`ok` carries the `usage` fields of the JSON response. -/
inductive HandlerResult where
  | crash
  | budgetExceeded
  | externalFailure
  | ok (token_count : Nat) (monthly_cost : ℚ) (reset_date : Time)
deriving Repr, DecidableEq

/-- The `strategy_suggestion` handler, restricted to its metering effects.
`ext` is the external OpenAI call: `some (tokens_in, tokens_out)` on
success (the token counts of the response), `none` when the call raises.
The pipeline is exactly the source: `init_user_usage`; `get_usage`;
`reset_if_needed`; budget test; external call; `calculate_openai_cost`;
`update_usage`; response from the local snapshot. -/
def strategy_suggestion (s : Store) (user_id : String) (now : Time) (cap : ℚ)
    (model_name : String) (ext : Option (Nat × Nat)) : HandlerResult × Store :=
  let s1 := init_user_usage s user_id now
  match get_usage s1 user_id with
  | none => (.crash, s1)
  | some usage0 =>
    let rs := reset_if_needed s1 user_id usage0 now
    if cap ≤ rs.1.monthly_cost then (.budgetExceeded, rs.2)
    else
      match ext with
      | none => (.externalFailure, rs.2)
      | some (tokens_in, tokens_out) =>
        let total := tokens_in + tokens_out
        let cost := calculate_openai_cost tokens_in tokens_out model_name
        (.ok (rs.1.token_count + total) (rs.1.monthly_cost + cost) rs.1.reset_date,
         update_usage rs.2 user_id total cost)

/-- The read path of the handler before the budget test:
`init_user_usage`, then `get_usage`, then `reset_if_needed` (the junk
default is unreachable: after `init_user_usage`, `get_usage` is `some`). -/
def afterRollover (s : Store) (user_id : String) (now : Time) : UsageRecord × Store :=
  let s1 := init_user_usage s user_id now
  match get_usage s1 user_id with
  | none => (⟨0, 0, 0⟩, s1)
  | some usage0 => reset_if_needed s1 user_id usage0 now

/-- A sequence of `update_usage` calls for one user (the accrual steps of
successive requests within one window). -/
def applyUpdates (s : Store) (user_id : String) (l : List (Nat × ℚ)) : Store :=
  l.foldl (fun st p => update_usage st user_id p.1 p.2) s

/-- A sequence of `init_user_usage` calls for one user at given times. -/
def ensureAll (s : Store) (user_id : String) (ts : List Time) : Store :=
  ts.foldl (fun st t => init_user_usage st user_id t) s

/-- Number of rows of the table keyed by `user_id`. -/
def countU (s : Store) (user_id : String) : Nat :=
  s.countP (fun p => p.1 == user_id)

/-! ### Basic lemmas about the table operations -/

theorem get_usage_cons_self (s : Store) (u : String) (r : UsageRecord) :
    get_usage ((u, r) :: s) u = some r := by
  simp [get_usage]

theorem init_of_some (s : Store) (u : String) (now : Time)
    (h : (get_usage s u).isSome) : init_user_usage s u now = s := by
  simp [init_user_usage, h]

theorem init_of_none (s : Store) (u : String) (now : Time)
    (h : get_usage s u = none) :
    init_user_usage s u now = (u, ⟨0, 0, now + days 30⟩) :: s := by
  simp [init_user_usage, h]

theorem get_usage_init_isSome (s : Store) (u : String) (now : Time) :
    (get_usage (init_user_usage s u now) u).isSome := by
  cases h : get_usage s u with
  | none => rw [init_of_none s u now h, get_usage_cons_self]; rfl
  | some r => rw [init_of_some s u now (by rw [h]; rfl), h]; rfl

theorem get_usage_mapRow (s : Store) (u : String) (f : UsageRecord → UsageRecord) :
    get_usage (mapRow s u f) u = (get_usage s u).map f := by
  induction s with
  | nil => rfl
  | cons p t ih =>
    by_cases h : (p.1 == u) = true
    · simp only [mapRow, List.map_cons, if_pos h, get_usage, Option.map_some']
    · simp only [mapRow, List.map_cons, if_neg h, get_usage]
      exact ih

theorem mapRow_of_none (s : Store) (u : String) (f : UsageRecord → UsageRecord)
    (h : get_usage s u = none) : mapRow s u f = s := by
  induction s with
  | nil => rfl
  | cons p t ih =>
    by_cases hp : (p.1 == u) = true
    · simp only [get_usage, if_pos hp] at h
      exact absurd h (Option.some_ne_none _)
    · simp only [get_usage, if_neg hp] at h
      simp only [mapRow, List.map_cons, if_neg hp]
      rw [show List.map (fun p => if p.1 == u then (p.1, f p.2) else p) t = mapRow t u f
          from rfl, ih h]

theorem mapRow_mapRow (s : Store) (u : String) (f g : UsageRecord → UsageRecord) :
    mapRow (mapRow s u f) u g = mapRow s u (fun r => g (f r)) := by
  induction s with
  | nil => rfl
  | cons p t ih =>
    by_cases h : (p.1 == u) = true
    · simp only [mapRow, List.map_cons, if_pos h] at ih ⊢
      rw [ih]
    · simp only [mapRow, List.map_cons, if_neg h] at ih ⊢
      rw [ih]

theorem mapRow_congr (s : Store) (u : String) (f g : UsageRecord → UsageRecord)
    (h : ∀ r, f r = g r) : mapRow s u f = mapRow s u g := by
  unfold mapRow
  apply List.map_congr_left
  intro p _
  by_cases hp : (p.1 == u) = true
  · rw [if_pos hp, if_pos hp, h]
  · rw [if_neg hp, if_neg hp]

theorem mapRow_id (s : Store) (u : String) :
    mapRow s u (fun r => r) = s := by
  unfold mapRow
  conv_rhs => rw [← List.map_id s]
  apply List.map_congr_left
  intro p _
  by_cases hp : (p.1 == u) = true
  · rw [if_pos hp]; rfl
  · rw [if_neg hp]; rfl

theorem get_usage_afterRollover (s : Store) (u : String) (now : Time) :
    get_usage (afterRollover s u now).2 u = some (afterRollover s u now).1 := by
  cases h : get_usage (init_user_usage s u now) u with
  | none =>
    have hs := get_usage_init_isSome s u now
    rw [h] at hs
    simp at hs
  | some r =>
    simp only [afterRollover, h]
    unfold reset_if_needed
    by_cases hr : r.reset_date ≤ now
    · rw [if_pos hr]
      simp only
      rw [get_usage_mapRow, h]
      rfl
    · rw [if_neg hr]
      exact h

theorem strategy_suggestion_eq (s : Store) (u : String) (now : Time) (cap : ℚ)
    (m : String) (ext : Option (Nat × Nat)) :
    strategy_suggestion s u now cap m ext =
      if cap ≤ (afterRollover s u now).1.monthly_cost then
        (.budgetExceeded, (afterRollover s u now).2)
      else
        match ext with
        | none => (.externalFailure, (afterRollover s u now).2)
        | some (tin, tout) =>
          (.ok ((afterRollover s u now).1.token_count + (tin + tout))
               ((afterRollover s u now).1.monthly_cost + calculate_openai_cost tin tout m)
               (afterRollover s u now).1.reset_date,
           update_usage (afterRollover s u now).2 u (tin + tout)
             (calculate_openai_cost tin tout m)) := by
  cases h : get_usage (init_user_usage s u now) u with
  | none =>
    have hs := get_usage_init_isSome s u now
    rw [h] at hs
    simp at hs
  | some r =>
    simp only [strategy_suggestion, afterRollover, h]

theorem applyUpdates_eq (u : String) (l : List (Nat × ℚ)) (s : Store) :
    applyUpdates s u l =
      mapRow s u (fun r =>
        ⟨r.token_count + (l.map Prod.fst).sum,
         r.monthly_cost + (l.map Prod.snd).sum, r.reset_date⟩) := by
  induction l generalizing s with
  | nil =>
    simp only [applyUpdates, List.foldl_nil, List.map_nil, List.sum_nil]
    rw [mapRow_congr s u _ (fun r => r) (by intro r; cases r; simp), mapRow_id]
  | cons a l ih =>
    show applyUpdates (update_usage s u a.1 a.2) u l = _
    rw [ih]
    unfold update_usage
    rw [mapRow_mapRow]
    apply mapRow_congr
    intro r
    simp [add_assoc]

theorem ensureAll_of_some (s : Store) (u : String) (ts : List Time)
    (h : (get_usage s u).isSome) : ensureAll s u ts = s := by
  induction ts with
  | nil => rfl
  | cons t ts ih =>
    show ensureAll (init_user_usage s u t) u ts = s
    rw [init_of_some s u t h]
    exact ih

theorem get_usage_eq_none (s : Store) (u : String) (h : get_usage s u = none) :
    ∀ p ∈ s, ¬((p.1 == u) = true) := by
  induction s with
  | nil => intro p hp; cases hp
  | cons q t ih =>
    by_cases hq : (q.1 == u) = true
    · simp only [get_usage, if_pos hq] at h
      exact absurd h (Option.some_ne_none _)
    · simp only [get_usage, if_neg hq] at h
      intro p hp
      rcases List.mem_cons.mp hp with rfl | hp'
      · exact hq
      · exact ih h p hp'

/-! ### Claims -/

/-- Claim C4: `calculate_openai_cost` is a pure function of
`(tokens_in, tokens_out, model_name)`; for a model present in `PRICES`
it returns `tokens_in * rates.input + tokens_out * rates.output`, for a
model absent from `PRICES` it returns `0`, and in particular
`calculate_openai_cost 100 50 "unknown-model" = 0`. -/
theorem C4_cost_calculation :
    (∀ (tin tout : Nat) (m : String) (r : Rates),
      priceFor m = some r →
      calculate_openai_cost tin tout m = tin * r.input + tout * r.output) ∧
    (∀ (tin tout : Nat) (m : String),
      priceFor m = none → calculate_openai_cost tin tout m = 0) ∧
    calculate_openai_cost 100 50 "unknown-model" = 0 := by
  refine ⟨?_, ?_, by decide⟩
  · intro tin tout m r h
    simp [calculate_openai_cost, h]
  · intro tin tout m h
    simp [calculate_openai_cost, h]

/-- Witness for C4: the known-model branch at `"gpt-5-nano"` and the
unknown-model branch at `"unknown-model"`, on concrete token counts. -/
theorem C4_cost_calculation_witness :
    calculate_openai_cost 3 5 "gpt-5-nano" =
      (3 : Nat) * ((0.05 : ℚ) / 1000000) + (5 : Nat) * ((0.40 : ℚ) / 1000000) ∧
    calculate_openai_cost 7 9 "unknown-model" = 0 :=
  ⟨C4_cost_calculation.1 3 5 "gpt-5-nano" ⟨0.05 / 1000000, 0.40 / 1000000⟩ (by rfl),
   C4_cost_calculation.2.1 7 9 "unknown-model" (by rfl)⟩

/-- Claim C9: reading a user for which `ensure_user` was never called (no
row in the table) yields the no-record signal instead of a usage record:
`get_usage` returns `none` (the source returns Python `None`), never a
row. -/
theorem C9_missing_user_not_found (s : Store) (u : String)
    (h : ∀ p ∈ s, p.1 ≠ u) : get_usage s u = none := by
  induction s with
  | nil => rfl
  | cons q t ih =>
    have hq : ¬((q.1 == u) = true) := by
      intro hb
      exact h q (List.mem_cons_self q t) (beq_iff_eq.mp hb)
    simp only [get_usage, if_neg hq]
    exact ih (fun p hp => h p (List.mem_cons_of_mem _ hp))

/-- Witness for C9: a table holding only alice, read for bob. -/
theorem C9_missing_user_not_found_witness :
    get_usage [("alice", ⟨0, 0, days 30⟩)] "bob" = none :=
  C9_missing_user_not_found _ _ (by decide)

/-- Claim C10: `update_usage` for a user with no row is a silent no-op:
the `UPDATE ... WHERE user_id = %s` matches zero rows, the table is
returned completely unchanged, no row is created for the user, and no
error is signalled (the function returns normally); the reported usage
is silently dropped. -/
theorem C10_update_missing_user_noop (s : Store) (u : String)
    (tokens : Nat) (cost : ℚ) (h : get_usage s u = none) :
    update_usage s u tokens cost = s :=
  mapRow_of_none s u _ h

/-- Witness for C10: recording usage for bob in a table holding only
alice leaves the table untouched. -/
theorem C10_update_missing_user_noop_witness :
    update_usage [("alice", ⟨1, 2, days 30⟩)] "bob" 7 (1 / 2) =
      [("alice", ⟨1, 2, days 30⟩)] :=
  C10_update_missing_user_noop _ _ _ _ (by decide)

/-- Claim C2: lazy window rollover.  If `now >= reset_date`,
`reset_if_needed` returns a snapshot with `token_count = 0`,
`monthly_cost = 0` and `reset_date = now + 30 days` (computed from the
access time `now`, not from the old `reset_date`), and the user's row in
the table is zeroed the same way; if `now < reset_date` it returns the
snapshot and the table untouched, so the zeroing happens exactly when
`now >= reset_date`. -/
theorem C2_lazy_rollover (s : Store) (u : String) (usage : UsageRecord)
    (now : Time) :
    (usage.reset_date ≤ now →
      (reset_if_needed s u usage now).1 = ⟨0, 0, now + days 30⟩ ∧
      ∀ r, get_usage s u = some r →
        get_usage (reset_if_needed s u usage now).2 u =
          some ⟨0, 0, now + days 30⟩) ∧
    (now < usage.reset_date → reset_if_needed s u usage now = (usage, s)) := by
  constructor
  · intro h
    constructor
    · simp [reset_if_needed, h]
    · intro r hr
      simp only [reset_if_needed, if_pos h]
      rw [get_usage_mapRow, hr]
      rfl
  · intro h
    unfold reset_if_needed
    rw [if_neg (not_le.mpr h)]

/-- Witness for C2: carol's stale row (`reset_date = days 1`) accessed at
`now = days 2` comes back zeroed with `reset_date = days 2 + days 30` in
both the snapshot and the table; the same row accessed at `now = 0` is
untouched. -/
theorem C2_lazy_rollover_witness :
    (reset_if_needed [("carol", ⟨500, 5, days 1⟩)] "carol" ⟨500, 5, days 1⟩
        (days 2)).1 = ⟨0, 0, days 2 + days 30⟩ ∧
    get_usage (reset_if_needed [("carol", ⟨500, 5, days 1⟩)] "carol"
        ⟨500, 5, days 1⟩ (days 2)).2 "carol" = some ⟨0, 0, days 2 + days 30⟩ ∧
    reset_if_needed [("carol", ⟨500, 5, days 1⟩)] "carol" ⟨500, 5, days 1⟩ 0 =
      (⟨500, 5, days 1⟩, [("carol", ⟨500, 5, days 1⟩)]) :=
  ⟨((C2_lazy_rollover _ _ _ _).1 (by decide)).1,
   ((C2_lazy_rollover _ _ _ _).1 (by decide)).2 ⟨500, 5, days 1⟩ (by decide),
   (C2_lazy_rollover _ _ _ _).2 (by decide)⟩

/-- Claim C1: the budget gate.  `check_budget` (the handler's budget
test) is `false` iff `cap ≤ monthly_cost`; whenever `monthly_cost ≥ cap`
at check time (after rollover), the handler rejects with
`budgetExceeded` uniformly in the external call's outcome `ext` — so the
external paid API is never consulted; and the metered operation proceeds
to an `ok` response exactly when `monthly_cost < cap` at check time and
the external call happens. -/
theorem C1_budget_gate :
    (∀ (usage : UsageRecord) (cap : ℚ),
      check_budget usage cap = false ↔ cap ≤ usage.monthly_cost) ∧
    (∀ (s : Store) (u : String) (now : Time) (cap : ℚ) (m : String)
       (ext : Option (Nat × Nat)),
      cap ≤ (afterRollover s u now).1.monthly_cost →
      strategy_suggestion s u now cap m ext =
        (.budgetExceeded, (afterRollover s u now).2)) ∧
    (∀ (s : Store) (u : String) (now : Time) (cap : ℚ) (m : String)
       (ext : Option (Nat × Nat)),
      (∃ a b c, (strategy_suggestion s u now cap m ext).1 = .ok a b c) ↔
        ((afterRollover s u now).1.monthly_cost < cap ∧ ext ≠ none)) := by
  refine ⟨?_, ?_, ?_⟩
  · intro usage cap
    simp [check_budget, not_lt]
  · intro s u now cap m ext h
    rw [strategy_suggestion_eq, if_pos h]
  · intro s u now cap m ext
    rw [strategy_suggestion_eq]
    by_cases h : cap ≤ (afterRollover s u now).1.monthly_cost
    · rw [if_pos h]
      simp [not_lt.mpr h]
    · rw [if_neg h]
      cases ext with
      | none => simp
      | some p =>
        cases p with
        | mk tin tout => simp [not_le.mp h]

/-- Witness for C1: bob is over budget (cost 12 against cap 10) and gets
`budgetExceeded`; `check_budget` is false at cost 10 against cap 10;
alice at cost 0 gets through to an `ok` response. -/
theorem C1_budget_gate_witness :
    check_budget ⟨0, 10, 0⟩ 10 = false ∧
    strategy_suggestion [("bob", ⟨100, 12, days 40⟩)] "bob" (days 1) 10
        "gpt-5-nano" (some (5, 5)) =
      (.budgetExceeded,
       (afterRollover [("bob", ⟨100, 12, days 40⟩)] "bob" (days 1)).2) ∧
    (∃ a b c,
      (strategy_suggestion [("alice", ⟨0, 0, days 30⟩)] "alice" 0 10
          "unknown-model" (some (3, 4))).1 = .ok a b c) :=
  ⟨(C1_budget_gate.1 ⟨0, 10, 0⟩ 10).mpr (by decide),
   C1_budget_gate.2.1 _ _ _ _ _ _ (by decide),
   (C1_budget_gate.2.2 _ _ _ _ _ _).mpr ⟨by decide, by decide⟩⟩

/-- Counterexample to claim C7 as stated: `get_usage` alone does NOT
apply the pending reset.  For carol's stale row (`reset_date = days 1`,
`token_count = 500`, `monthly_cost = 5`) read at `now = days 2`, which
is at or past `reset_date`, `get_usage` returns the stale accumulated
values, not the zeroed snapshot the claim promises. -/
theorem C7_counterexample :
    days 1 ≤ days 2 ∧
    get_usage [("carol", ⟨500, 5, days 1⟩)] "carol" = some ⟨500, 5, days 1⟩ ∧
    get_usage [("carol", ⟨500, 5, days 1⟩)] "carol" ≠
      some ⟨0, 0, days 2 + days 30⟩ := by
  refine ⟨by decide, by decide, by decide⟩

/-- Claim C7 amended: `get_usage` returns the stored row unchanged even
when the window has elapsed; the pending reset is applied by
`reset_if_needed`, which the handler invokes immediately after
`get_usage`, so the handler's composed read path (`afterRollover`)
returns the zeroed snapshot with `reset_date = now + 30 days`, and the
table row is zeroed the same way. -/
theorem C7_get_usage_then_rollover (s : Store) (u : String) (now : Time)
    (r : UsageRecord) (h : get_usage s u = some r)
    (hdue : r.reset_date ≤ now) :
    get_usage s u = some r ∧
    (afterRollover s u now).1 = ⟨0, 0, now + days 30⟩ ∧
    get_usage (afterRollover s u now).2 u = some ⟨0, 0, now + days 30⟩ := by
  have hinit : init_user_usage s u now = s :=
    init_of_some s u now (by rw [h]; rfl)
  have h1 : (afterRollover s u now).1 = ⟨0, 0, now + days 30⟩ := by
    simp only [afterRollover, hinit, h]
    unfold reset_if_needed
    rw [if_pos hdue]
  refine ⟨h, h1, ?_⟩
  rw [get_usage_afterRollover, h1]

/-- Witness for the amended C7: carol's stale row read at `now = days 2`
through the handler's read path comes back zeroed with a fresh
`reset_date`. -/
theorem C7_get_usage_then_rollover_witness :
    get_usage [("carol", ⟨500, 5, days 1⟩)] "carol" = some ⟨500, 5, days 1⟩ ∧
    (afterRollover [("carol", ⟨500, 5, days 1⟩)] "carol" (days 2)).1 =
      ⟨0, 0, days 2 + days 30⟩ ∧
    get_usage (afterRollover [("carol", ⟨500, 5, days 1⟩)] "carol"
        (days 2)).2 "carol" = some ⟨0, 0, days 2 + days 30⟩ :=
  C7_get_usage_then_rollover _ _ _ ⟨500, 5, days 1⟩ (by decide) (by decide)

/-- Claim C8: no charge for failed external calls.  For a request that
passes the budget check, if the external paid call raises (`ext = none`)
then no usage is recorded: the handler propagates the failure and the
table is exactly the one produced by the rollover check — the user's row
(token_count, monthly_cost, reset_date) is exactly the after-rollover
snapshot, since `update_usage` is only invoked after a successful
external response. -/
theorem C8_no_charge_on_failure (s : Store) (u : String) (now : Time)
    (cap : ℚ) (m : String)
    (h : (afterRollover s u now).1.monthly_cost < cap) :
    strategy_suggestion s u now cap m none =
      (.externalFailure, (afterRollover s u now).2) ∧
    get_usage (strategy_suggestion s u now cap m none).2 u =
      some (afterRollover s u now).1 := by
  have he : strategy_suggestion s u now cap m none =
      (.externalFailure, (afterRollover s u now).2) := by
    rw [strategy_suggestion_eq, if_neg (not_le.mpr h)]
  refine ⟨he, ?_⟩
  rw [he]
  exact get_usage_afterRollover s u now

/-- Witness for C8: alice is under budget, the external call fails, and
her row is exactly the after-rollover one. -/
theorem C8_no_charge_on_failure_witness :
    strategy_suggestion [("alice", ⟨1000, 2, days 30⟩)] "alice" (days 3) 10
        "gpt-5-nano" none =
      (.externalFailure,
       (afterRollover [("alice", ⟨1000, 2, days 30⟩)] "alice" (days 3)).2) ∧
    get_usage (strategy_suggestion [("alice", ⟨1000, 2, days 30⟩)] "alice"
        (days 3) 10 "gpt-5-nano" none).2 "alice" =
      some (afterRollover [("alice", ⟨1000, 2, days 30⟩)] "alice" (days 3)).1 :=
  C8_no_charge_on_failure _ _ _ _ _ (by decide)

/-- Claim C3: commutative accrual.  For a user with an existing row, a
sequence of `update_usage` calls within one window adds exactly the sum
of the reported tokens to `token_count` and the sum of the reported
costs to `monthly_cost` (leaving `reset_date` unchanged), and the final
table is the same for any two orderings of the calls. -/
theorem C3_commutative_accrual :
    (∀ (s : Store) (u : String) (r : UsageRecord) (l : List (Nat × ℚ)),
      get_usage s u = some r →
      get_usage (applyUpdates s u l) u =
        some ⟨r.token_count + (l.map Prod.fst).sum,
              r.monthly_cost + (l.map Prod.snd).sum, r.reset_date⟩) ∧
    (∀ (s : Store) (u : String) (l l' : List (Nat × ℚ)),
      l.Perm l' → applyUpdates s u l = applyUpdates s u l') := by
  constructor
  · intro s u r l h
    rw [applyUpdates_eq, get_usage_mapRow, h]
    rfl
  · intro s u l l' hp
    rw [applyUpdates_eq, applyUpdates_eq]
    apply mapRow_congr
    intro r
    rw [(hp.map Prod.fst).sum_eq, (hp.map Prod.snd).sum_eq]

/-- Witness for C3: two accrual calls for alice add up (1000 + 2 tokens,
2 + 3 cost) and the reversed order produces the identical table. -/
theorem C3_commutative_accrual_witness :
    get_usage (applyUpdates [("alice", ⟨0, 0, days 30⟩)] "alice"
        [(1000, 2), (2, 3)]) "alice" =
      some ⟨0 + ([(1000, 2), (2, 3)].map Prod.fst).sum,
            0 + ([(1000, 2), (2, 3)].map Prod.snd).sum, days 30⟩ ∧
    applyUpdates [("alice", ⟨0, 0, days 30⟩)] "alice" [(1000, 2), (2, 3)] =
      applyUpdates [("alice", ⟨0, 0, days 30⟩)] "alice" [(2, 3), (1000, 2)] :=
  ⟨C3_commutative_accrual.1 _ _ ⟨0, 0, days 30⟩ _ (by decide),
   C3_commutative_accrual.2 _ _ _ _ (by decide)⟩

/-- Claim C5: idempotent creation.  Starting from a table with no row for
`u`, any nonempty sequence of `init_user_usage` calls leaves exactly one
row for `u`, with `token_count = 0`, `monthly_cost = 0` and `reset_date`
equal to 30 days after the first call's time; and an `init_user_usage`
call when a row for `u` already exists leaves the table (hence that
row's fields) completely unchanged. -/
theorem C5_idempotent_creation :
    (∀ (s : Store) (u : String) (t : Time) (ts : List Time),
      get_usage s u = none →
      get_usage (ensureAll s u (t :: ts)) u = some ⟨0, 0, t + days 30⟩ ∧
      countU (ensureAll s u (t :: ts)) u = 1) ∧
    (∀ (s : Store) (u : String) (now : Time) (r : UsageRecord),
      get_usage s u = some r → init_user_usage s u now = s) := by
  constructor
  · intro s u t ts h
    have h2 : ensureAll s u (t :: ts) = (u, ⟨0, 0, t + days 30⟩) :: s := by
      show ensureAll (init_user_usage s u t) u ts = _
      rw [init_of_none s u t h]
      exact ensureAll_of_some _ _ _ (by rw [get_usage_cons_self]; rfl)
    constructor
    · rw [h2, get_usage_cons_self]
    · rw [h2]
      unfold countU
      rw [List.countP_cons]
      have h0 : List.countP (fun p => p.1 == u) s = 0 :=
        List.countP_eq_zero.mpr (get_usage_eq_none s u h)
      simp [h0]
  · intro s u now r h
    exact init_of_some s u now (by rw [h]; rfl)

/-- Witness for C5: three `init_user_usage` calls for dave at increasing
times leave exactly one row carrying the first call's window, and a call
for the already-present alice changes nothing. -/
theorem C5_idempotent_creation_witness :
    get_usage (ensureAll [("alice", ⟨1, 2, days 9⟩)] "dave"
        [days 1, days 2, days 3]) "dave" = some ⟨0, 0, days 1 + days 30⟩ ∧
    countU (ensureAll [("alice", ⟨1, 2, days 9⟩)] "dave"
        [days 1, days 2, days 3]) "dave" = 1 ∧
    init_user_usage [("alice", ⟨1, 2, days 9⟩)] "alice" (days 5) =
      [("alice", ⟨1, 2, days 9⟩)] :=
  ⟨(C5_idempotent_creation.1 _ _ (days 1) [days 2, days 3] (by decide)).1,
   (C5_idempotent_creation.1 _ _ (days 1) [days 2, days 3] (by decide)).2,
   C5_idempotent_creation.2 _ _ (days 5) ⟨1, 2, days 9⟩ (by decide)⟩

/-- Claim C6: at-most-one-over-budget tolerance.  (i) Once a user's row
has `monthly_cost ≥ cap`, a further request before the window reset
(`now < reset_date`) is rejected with `budgetExceeded` and leaves the
table exactly unchanged — no further accrual for that user until a
window reset.  (ii) Whenever a request produces an `ok` response, the
check-time cost was `< cap` and the row afterwards carries exactly the
check-time cost plus that one request's cost — so `monthly_cost` never
exceeds the cap by more than the cost of the single request that pushed
it over. -/
theorem C6_at_most_one_over_budget :
    (∀ (s : Store) (u : String) (now : Time) (cap : ℚ) (m : String)
       (ext : Option (Nat × Nat)) (r : UsageRecord),
      get_usage s u = some r → cap ≤ r.monthly_cost → now < r.reset_date →
      strategy_suggestion s u now cap m ext = (.budgetExceeded, s)) ∧
    (∀ (s : Store) (u : String) (now : Time) (cap : ℚ) (m : String)
       (tin tout a : Nat) (b : ℚ) (c : Time),
      (strategy_suggestion s u now cap m (some (tin, tout))).1 = .ok a b c →
      (afterRollover s u now).1.monthly_cost < cap ∧
      get_usage (strategy_suggestion s u now cap m (some (tin, tout))).2 u =
        some ⟨(afterRollover s u now).1.token_count + (tin + tout),
              (afterRollover s u now).1.monthly_cost +
                calculate_openai_cost tin tout m,
              (afterRollover s u now).1.reset_date⟩) := by
  constructor
  · intro s u now cap m ext r hr hcap hnow
    have hinit : init_user_usage s u now = s :=
      init_of_some s u now (by rw [hr]; rfl)
    have hroll : afterRollover s u now = (r, s) := by
      simp only [afterRollover, hinit, hr]
      unfold reset_if_needed
      rw [if_neg (not_le.mpr hnow)]
    rw [strategy_suggestion_eq, hroll, if_pos hcap]
  · intro s u now cap m tin tout a b c hok
    rw [strategy_suggestion_eq] at hok ⊢
    by_cases h : cap ≤ (afterRollover s u now).1.monthly_cost
    · rw [if_pos h] at hok
      simp at hok
    · rw [if_neg h] at hok ⊢
      refine ⟨not_le.mp h, ?_⟩
      show get_usage (update_usage (afterRollover s u now).2 u (tin + tout)
        (calculate_openai_cost tin tout m)) u = _
      unfold update_usage
      rw [get_usage_mapRow, get_usage_afterRollover]
      rfl

/-- Witness for C6: bob over budget (12 against cap 10) inside his window
is rejected with the table unchanged; alice's successful request records
exactly her check-time cost plus the one request's cost. -/
theorem C6_at_most_one_over_budget_witness :
    strategy_suggestion [("bob", ⟨100, 12, days 40⟩)] "bob" (days 1) 10
        "gpt-5-nano" (some (5, 5)) =
      (.budgetExceeded, [("bob", ⟨100, 12, days 40⟩)]) ∧
    ((afterRollover [("alice", ⟨0, 0, days 30⟩)] "alice" 0).1.monthly_cost < 10 ∧
     get_usage (strategy_suggestion [("alice", ⟨0, 0, days 30⟩)] "alice" 0 10
         "unknown-model" (some (3, 4))).2 "alice" =
       some ⟨(afterRollover [("alice", ⟨0, 0, days 30⟩)] "alice" 0).1.token_count
               + (3 + 4),
             (afterRollover [("alice", ⟨0, 0, days 30⟩)] "alice" 0).1.monthly_cost
               + calculate_openai_cost 3 4 "unknown-model",
             (afterRollover [("alice", ⟨0, 0, days 30⟩)] "alice" 0).1.reset_date⟩) :=
  ⟨C6_at_most_one_over_budget.1 _ _ _ _ _ _ ⟨100, 12, days 40⟩ (by decide)
      (by decide) (by decide),
   C6_at_most_one_over_budget.2 _ _ _ _ _ 3 4 7 0 (days 30) (by
     rw [strategy_suggestion_eq]
     have h1 : afterRollover [("alice", ⟨0, 0, days 30⟩)] "alice" 0 =
         (⟨0, 0, days 30⟩, [("alice", ⟨0, 0, days 30⟩)]) := by
       simp [afterRollover, init_user_usage, get_usage, reset_if_needed, days]
     rw [h1]
     norm_num [show calculate_openai_cost 3 4 "unknown-model" = 0 from by decide])⟩

end ThronixPRO
